import Mathlib

/-!
Shallow embedding of `packages/core/src/plugins/bindings.ts` (miniflare).

The source file defines:
* `Fetcher` — a per-binding dispatcher (`fetch`, lines 65-87) that either calls a
  custom handler function directly, or waits for the readiness gate and calls the
  target service's dispatch entry point, containing callee failures as a 500
  response;
* `BindingsPlugin` — the reload lifecycle (`beforeReload` lines 288-295,
  `reload` lines 297-318, `dispose` lines 320-322, `#getServiceFetch`
  lines 218-231) built on a promise-per-cycle readiness gate
  (`#contextPromise` / `#contextResolve`) and an externally supplied mount
  table (`#mounts`);
* `setup` (lines 233-286) — composition of the binding mapping from five
  precedence-ordered sources, plus the watch-list of consulted file paths.

JavaScript asynchrony is embedded as an explicit event machine: a dispatch to a
named service is split into an `issue` step (runs `#getServiceFetch` up to the
`await this.#contextPromise`, capturing the generation of the promise read at
that moment) and a `resume` step (eligible once that generation's promise has
been resolved; re-reads `this.#mounts` as the source does after the `await`).
Promises are represented by generation numbers; resolving a promise adds its
generation to `resolvedGens`.  Machine integers do not occur; all values are
opaque type parameters or `Nat` identifiers.
-/

namespace Miniflare

/-- Response value: the core only needs "constructible from a status + headers
description" (`new Response(null, {status, headers})`); the body stays opaque. -/
structure ResponseM (Body : Type) where
  body : Option Body
  status : Nat
  headers : List (String × String)
  deriving Repr, DecidableEq

/-- The synthetic failure response built at lines 82-85 of the source:
`new Response(null, { status: 500, headers: { "CF-Worker-Status": "exception" } })`. -/
def internalExceptionResponse {Body : Type} : ResponseM Body :=
  { body := none, status := 500, headers := [("CF-Worker-Status", "exception")] }

/-- Defensive copy `new Request(input, init)` (line 67).  Request values are
opaque copyable values, so the copy is the identity on the abstract value. -/
def newRequest {Req : Type} (input : Req) : Req := input

/-- The `#service` field of a `Fetcher`: either a service name (`string`) or a
custom handler function (`FetcherFetch`).  A handler may return a response or
throw (`Except`). -/
def ServiceTarget (Req E Body : Type) : Type :=
  String ⊕ (Req → Except E (ResponseM Body))

/-- Model of the `Fetcher` class (lines 50-88).  `getServiceFetch` stands for
the gate-resolved entry-point lookup `await this.#getServiceFetch(service)`;
its suspension behaviour and assertion failures are modelled separately by the
lifecycle machine below, so here it yields the entry point that the lookup
eventually produced. -/
structure FetcherM (Req E Body : Type) where
  service : ServiceTarget Req E Body
  getServiceFetch : String → Req → Except E (ResponseM Body)

/-- Model of `Fetcher.fetch` (lines 65-87).  The second component collects the
errors passed to `this.#log.error` during the call.  The custom-handler branch
(line 70) returns the handler's result or failure unchanged; the named-service
branch wraps the invocation in the try/catch of lines 75-86. -/
def FetcherM.fetch {Req E Body : Type} (f : FetcherM Req E Body) (input : Req) :
    Except E (ResponseM Body) × List E :=
  let request := newRequest input
  match f.service with
  | Sum.inr handler => (handler request, [])
  | Sum.inl name =>
      let fetch := f.getServiceFetch name
      match fetch request with
      | Except.ok response => (Except.ok response, [])
      | Except.error e => (Except.ok internalExceptionResponse, [e])

/-- An entry of `#processedServiceBindings` (lines 35-39, built at lines
208-215): `service` is a service name (`Sum.inl`) or a handler function /
handler identifier (`Sum.inr`). -/
structure ProcessedServiceBinding (F : Type) where
  name : String
  service : String ⊕ F
  environment : String
  deriving Repr, DecidableEq

/-- A mount table entry (`Mount`): `dispatchFetch` is optional in the source
("it's optional to make testing easier", line 227). -/
structure MountM (H : Type) where
  dispatchFetch : Option H
  deriving Repr, DecidableEq

/-- The message of the `ERR_SERVICE_NOT_MOUNTED` error thrown at lines 305-309. -/
def serviceNotMountedMessage (service name : String) : String :=
  "Service \"" ++ service ++ "\" for binding \"" ++ name ++ "\" not found.\n" ++
    "Make sure \"" ++ service ++ "\" is mounted so Miniflare knows where to find it."

/-- Errors that `reload` can throw: the `MiniflareCoreError` with code
`ERR_SERVICE_NOT_MOUNTED` (lines 305-309), or a node `assert` failure
(lines 313-316). -/
inductive ReloadError where
  | serviceNotMounted (message : String)
  | assertionFailed (message : String)
  deriving Repr, DecidableEq

/-- The private reload state of `BindingsPlugin` (lines 196-198).  The promise
`#contextPromise` and its resolver `#contextResolve` are represented by the
generation number of the cycle that created them; `resolvedGens` records which
generations' promises have been resolved; `nextGen` allocates fresh
generations. -/
structure PluginState (H : Type) where
  contextGen : Option Nat := none
  contextResolveGen : Option Nat := none
  resolvedGens : List Nat := []
  mounts : Option (List (String × MountM H)) := none
  nextGen : Nat := 0
  deriving Repr, DecidableEq

/-- `beforeReload` (lines 288-295): clear the mounts reference and create a
fresh, unresolved promise together with its resolver. -/
def beforeReload {H : Type} (s : PluginState H) : PluginState H :=
  { s with
    mounts := none
    contextGen := some s.nextGen
    contextResolveGen := some s.nextGen
    nextGen := s.nextGen + 1 }

/-- The validation loop of `reload` (lines 303-311): the first processed
service binding whose target is a service name missing from the new mount
table, as a `(name, service)` pair. -/
def firstUnmounted {H F : Type} (processed : List (ProcessedServiceBinding F))
    (mounts : List (String × MountM H)) : Option (String × String) :=
  processed.findSome? fun b =>
    match b.service with
    | Sum.inl service =>
        if (mounts.lookup service).isNone then some (b.name, service) else none
    | Sum.inr _ => none

/-- `reload` (lines 297-318).  Returns the state after the call together with
the error thrown, if any.  The source mutates `this.#mounts = mounts` (line
312) before the `assert(this.#contextResolve)` (lines 313-316), so on an
assertion failure the adopted mounts survive; on a validation failure nothing
has been mutated.  Resolving the promise (line 317) records the resolver's
generation. -/
def reload {H : Type} (processed : List (ProcessedServiceBinding H))
    (mounts : List (String × MountM H)) (s : PluginState H) :
    PluginState H × Option ReloadError :=
  match firstUnmounted processed mounts with
  | some (name, service) =>
      (s, some (ReloadError.serviceNotMounted (serviceNotMountedMessage service name)))
  | none =>
      let s := { s with mounts := some mounts }
      match s.contextResolveGen with
      | none => (s, some (ReloadError.assertionFailed
          "beforeReload() must be called before reload()"))
      | some g => ({ s with resolvedGens := g :: s.resolvedGens }, none)

/-- `dispose` (lines 320-322): `return this.beforeReload()`. -/
def dispose {H : Type} (s : PluginState H) : PluginState H :=
  beforeReload s

/-- Outcome of one dispatch through `#getServiceFetch` (lines 218-231):
either a fatal `assert` failure, or the dispatch entry point that the lookup
produced (and the dispatch then invokes). -/
inductive DispatchResult (H : Type) where
  | fatalAssert
  | invoked (h : H)
  deriving Repr, DecidableEq

/-- State of the whole system: the plugin's private state, the dispatches
currently suspended on the gate (`id`, target service name, generation of the
promise captured at the `await`), the results of completed dispatches, and the
errors thrown by `reload` calls so far. -/
structure SysState (H : Type) where
  plugin : PluginState H := {}
  pending : List (Nat × String × Nat) := []
  results : List (Nat × DispatchResult H) := []
  reloadErrors : List ReloadError := []
  deriving Repr, DecidableEq

/-- Events of the cooperative-concurrency machine.  `issue` runs
`#getServiceFetch` synchronously up to its `await`; `resume` is the scheduler
running the continuation after the awaited promise resolved. -/
inductive Event (H : Type) where
  | beforeReload
  | reload (mounts : List (String × MountM H))
  | issue (id : Nat) (service : String)
  | resume (id : Nat)
  | dispose
  deriving Repr, DecidableEq

/-- One machine step.  `issue` asserts `this.#contextPromise` (lines 220-223):
before any `beforeReload` has run the field is unset and the dispatch dies
with a fatal assertion; otherwise the dispatch suspends on the current
generation.  `resume` fires only once the captured generation's promise has
been resolved; it then re-reads `this.#mounts` (line 228) — the field current
at resumption — and `assert(fetch)` (line 229) turns a missing mounts map,
service, or entry point into a fatal assertion. -/
def step {H : Type} (processed : List (ProcessedServiceBinding H)) (e : Event H)
    (s : SysState H) : SysState H :=
  match e with
  | Event.beforeReload => { s with plugin := beforeReload s.plugin }
  | Event.dispose => { s with plugin := dispose s.plugin }
  | Event.reload mounts =>
      match reload processed mounts s.plugin with
      | (p, none) => { s with plugin := p }
      | (p, some err) => { s with plugin := p, reloadErrors := s.reloadErrors ++ [err] }
  | Event.issue id service =>
      match s.plugin.contextGen with
      | none => { s with results := s.results ++ [(id, DispatchResult.fatalAssert)] }
      | some g => { s with pending := s.pending ++ [(id, service, g)] }
  | Event.resume id =>
      match s.pending.find? (fun p => p.1 = id) with
      | none => s
      | some (_, service, g) =>
          if s.plugin.resolvedGens.contains g then
            let result :=
              match s.plugin.mounts with
              | none => DispatchResult.fatalAssert
              | some m =>
                  match (m.lookup service).bind MountM.dispatchFetch with
                  | none => DispatchResult.fatalAssert
                  | some h => DispatchResult.invoked h
            { s with
              pending := s.pending.eraseP (fun p => p.1 = id)
              results := s.results ++ [(id, result)] }
          else s

/-- Run the machine from a given state over a list of events. -/
def runFrom {H : Type} (processed : List (ProcessedServiceBinding H))
    (s : SysState H) (events : List (Event H)) : SysState H :=
  events.foldl (fun s e => step processed e s) s

/-- Run the machine from the initial state (a freshly constructed plugin). -/
def run {H : Type} (processed : List (ProcessedServiceBinding H))
    (events : List (Event H)) : SysState H :=
  runFrom processed {} events

/-- The `envPath` option (`envPath?: boolean | string`, lines 41-48): absent,
a boolean, or a path string. -/
inductive EnvPathOption where
  | undef
  | boolean (b : Bool)
  | pathStr (s : String)
  deriving Repr, DecidableEq

/-- The constructor fallback at lines 204-206: when `envPathDefaultFallback`
is set and `envPath` is undefined, treat it as `true`. -/
def applyEnvPathDefaultFallback (fallback : Bool) (envPath : EnvPathOption) :
    EnvPathOption :=
  if fallback && envPath == EnvPathOption.undef then EnvPathOption.boolean true
  else envPath

/-- Line 248, `this.envPath === true ? ".env" : this.envPath`, combined with
the truthiness test `if (envPath)` of line 249: `false`, `undefined` and the
empty string are falsy and skip the env-file source entirely. -/
def effectiveEnvPath : EnvPathOption → Option String
  | EnvPathOption.undef => none
  | EnvPathOption.boolean b => if b then some ".env" else none
  | EnvPathOption.pathStr s => if s = "" then none else some s

/-- A filesystem error as observed by the source: only the `code` property is
inspected (`e.code === "ENOENT"`, line 258). -/
structure FsError where
  code : String
  deriving Repr, DecidableEq

/-- A binding value in the composed mapping: a plain value (Wrangler
variables, `.env` variables and custom bindings, whose payloads stay opaque),
a compiled WebAssembly module (line 268), or a `Fetcher` constructed at lines
275-279 from the processed binding's `service` field. -/
inductive BindingVal (V F : Type) where
  | plain (v : V)
  | wasm (m : V)
  | fetcher (service : String ⊕ F)
  deriving Repr, DecidableEq

/-- JavaScript property assignment `obj[k] = v`: an existing key keeps its
position and gets the new value, a new key is appended. -/
def setKey {V : Type} (l : List (String × V)) (k : String) (v : V) :
    List (String × V) :=
  if l.any (fun kv => kv.1 == k) then
    l.map (fun kv => if kv.1 == k then (k, v) else kv)
  else l ++ [(k, v)]

/-- Property lookup `obj[k]`. -/
def getKey {V : Type} (l : List (String × V)) (k : String) : Option V :=
  (l.find? (fun kv => kv.1 == k)).map (fun kv => kv.2)

/-- `Object.assign(target, source)`: assign every property of `source` onto
`target`, in order. -/
def objAssign {V : Type} (target source : List (String × V)) :
    List (String × V) :=
  source.foldl (fun acc kv => setKey acc kv.1 kv.2) target

/-- The external collaborators `setup` consults: `path.resolve` pre-applied to
`this.ctx.rootPath`, `dotenv.parse(await fs.readFile(p, "utf8"))` for the env
file, and `new WebAssembly.Module(await fs.readFile(p))` for a wasm file. -/
structure SetupWorld (V : Type) where
  resolvePath : String → String
  readEnvFile : String → Except FsError (List (String × V))
  readWasmFile : String → Except FsError V

/-- The option fields of `BindingsPlugin` that `setup` reads (plus the
processed service bindings built in the constructor). -/
structure SetupConfig (V F : Type) where
  wranglerBindings : List (String × V)
  envPath : EnvPathOption
  wasmBindings : List (String × String)
  processedServiceBindings : List (ProcessedServiceBinding F)
  bindings : List (String × V)
  globals : List (String × V)

/-- The `SetupResult` returned by `setup` (line 285), restricted to the fields
it populates. -/
structure SetupResultM (V F : Type) where
  globals : List (String × V)
  bindings : List (String × BindingVal V F)
  watch : List String
  deriving Repr

/-- Source 2 of `setup` (lines 247-261): load the env file when an env path is
in effect.  An `ENOENT` read error is swallowed when the configured `envPath`
is the literal `true` (line 258); any other error propagates.  The resolved
path is pushed onto the watch list after the try/catch (line 260), so it is
recorded even when the read failed and was ignored. -/
def envSource {V F : Type} (cfg : SetupConfig V F) (w : SetupWorld V) :
    Except FsError (List (String × V) × List String) :=
  match effectiveEnvPath cfg.envPath with
  | none => Except.ok ([], [])
  | some p =>
      let rp := w.resolvePath p
      match w.readEnvFile rp with
      | Except.ok entries => Except.ok (entries, [rp])
      | Except.error e =>
          if e.code == "ENOENT" && cfg.envPath == EnvPathOption.boolean true then
            Except.ok ([], [rp])
          else Except.error e

/-- Source 3 of `setup` (lines 263-271): read each WebAssembly module in
order; the first failing read aborts the whole `setup`.  A path is pushed onto
the watch list only after its file was successfully read (line 269). -/
def readWasmAll {V : Type} (w : SetupWorld V) :
    List (String × String) → Except FsError (List (String × V) × List String)
  | [] => Except.ok ([], [])
  | (name, wasmPath) :: rest => do
      let rp := w.resolvePath wasmPath
      let m ← w.readWasmFile rp
      let (ms, ws) ← readWasmAll w rest
      Except.ok ((name, m) :: ms, rp :: ws)

/-- Tag a plain-value source for the composed mapping. -/
def plainSource {V F : Type} (l : List (String × V)) :
    List (String × BindingVal V F) :=
  l.map (fun kv => (kv.1, BindingVal.plain kv.2))

/-- `setup` (lines 233-286).  The five sources are assigned onto the shared
`bindings` object in ascending priority order (comment at lines 234-239):
1) Wrangler `[vars]` (line 245), 2) `.env` variables (lines 247-261), 3) WASM
module bindings (lines 263-271), 4) service bindings (lines 273-280),
5) custom bindings (line 283).  Each source's reads are independent of the
`bindings` object, so assigning source-by-source after reading is the same as
the source's interleaving; errors are raised in source order. -/
def setup {V F : Type} (cfg : SetupConfig V F) (w : SetupWorld V) :
    Except FsError (SetupResultM V F) := do
  let b1 := objAssign ([] : List (String × BindingVal V F)) (plainSource cfg.wranglerBindings)
  let (envEntries, envWatch) ← envSource cfg w
  let b2 := objAssign b1 (plainSource envEntries)
  let (wasmEntries, wasmWatch) ← readWasmAll w cfg.wasmBindings
  let b3 := objAssign b2 (wasmEntries.map (fun kv => (kv.1, BindingVal.wasm kv.2)))
  let b4 := objAssign b3 (cfg.processedServiceBindings.map
    (fun b => (b.name, BindingVal.fetcher b.service)))
  let b5 := objAssign b4 (plainSource cfg.bindings)
  Except.ok { globals := cfg.globals, bindings := b5, watch := envWatch ++ wasmWatch }

/-! ## Helper lemmas -/

/-- Characterization of `step` on a `reload` event. -/
theorem step_reload {H : Type} (processed : List (ProcessedServiceBinding H))
    (mounts : List (String × MountM H)) (s : SysState H) :
    step processed (Event.reload mounts) s =
      match reload processed mounts s.plugin with
      | (p, none) => { s with plugin := p }
      | (p, some err) =>
          { s with plugin := p, reloadErrors := s.reloadErrors ++ [err] } := rfl

/-- Characterization of `step` on an `issue` event. -/
theorem step_issue {H : Type} (processed : List (ProcessedServiceBinding H))
    (id : Nat) (service : String) (s : SysState H) :
    step processed (Event.issue id service) s =
      match s.plugin.contextGen with
      | none => { s with results := s.results ++ [(id, DispatchResult.fatalAssert)] }
      | some g => { s with pending := s.pending ++ [(id, service, g)] } := rfl

/-- Characterization of `step` on a `resume` event. -/
theorem step_resume {H : Type} (processed : List (ProcessedServiceBinding H))
    (id : Nat) (s : SysState H) :
    step processed (Event.resume id) s =
      match s.pending.find? (fun p => p.1 = id) with
      | none => s
      | some (_, service, g) =>
          if s.plugin.resolvedGens.contains g then
            { s with
              pending := s.pending.eraseP (fun p => p.1 = id)
              results := s.results ++
                [(id,
                  match s.plugin.mounts with
                  | none => DispatchResult.fatalAssert
                  | some m =>
                      match (m.lookup service).bind MountM.dispatchFetch with
                      | none => DispatchResult.fatalAssert
                      | some h => DispatchResult.invoked h)] }
          else s := rfl

/-- Neither branch of `reload` modifies `#contextPromise`. -/
theorem contextGen_reload {H : Type} (processed : List (ProcessedServiceBinding H))
    (mounts : List (String × MountM H)) (p : PluginState H) :
    ((reload processed mounts p).1).contextGen = p.contextGen := by
  unfold reload
  split
  · rfl
  · dsimp only
    split <;> rfl

/-- A step that is not `beforeReload` and not `dispose` leaves an unset
`#contextPromise` unset. -/
theorem contextGen_none_step {H : Type} (processed : List (ProcessedServiceBinding H))
    (e : Event H) (s : SysState H) (hs : s.plugin.contextGen = none)
    (he : e ≠ Event.beforeReload ∧ e ≠ Event.dispose) :
    (step processed e s).plugin.contextGen = none := by
  cases e with
  | beforeReload => exact absurd rfl he.1
  | dispose => exact absurd rfl he.2
  | reload mounts =>
      rw [step_reload]
      have h := contextGen_reload processed mounts s.plugin
      cases hre : reload processed mounts s.plugin with
      | mk p err =>
          rw [hre] at h
          cases err with
          | none => rw [show ({ s with plugin := p } : SysState H).plugin = p from rfl, h]; exact hs
          | some err =>
              rw [show ({ s with plugin := p, reloadErrors := s.reloadErrors ++ [err] } :
                SysState H).plugin = p from rfl, h]
              exact hs
  | issue id service =>
      rw [step_issue, hs]
      exact hs
  | resume id =>
      rw [step_resume]
      cases s.pending.find? (fun p => p.1 = id) with
      | none => exact hs
      | some p =>
          obtain ⟨j, service, g⟩ := p
          dsimp only
          split <;> exact hs

/-- Over a trace containing neither `beforeReload` nor `dispose`, an unset
`#contextPromise` stays unset. -/
theorem contextGen_none_runFrom {H : Type} (processed : List (ProcessedServiceBinding H))
    (t : List (Event H)) (s : SysState H) (hs : s.plugin.contextGen = none)
    (ht : ∀ e ∈ t, e ≠ Event.beforeReload ∧ e ≠ Event.dispose) :
    (runFrom processed s t).plugin.contextGen = none := by
  induction t generalizing s with
  | nil => exact hs
  | cons e t ih =>
      exact ih (step processed e s)
        (contextGen_none_step processed e s hs (ht e (List.mem_cons_self e t)))
        (fun e' he' => ht e' (List.mem_cons_of_mem e he'))

/-- Characterization of `step` on a `beforeReload` event. -/
theorem step_beforeReload {H : Type} (processed : List (ProcessedServiceBinding H))
    (s : SysState H) :
    step processed Event.beforeReload s = { s with plugin := beforeReload s.plugin } := rfl

/-- Characterization of `step` on a `dispose` event. -/
theorem step_dispose {H : Type} (processed : List (ProcessedServiceBinding H))
    (s : SysState H) :
    step processed Event.dispose s = { s with plugin := dispose s.plugin } := rfl

/-- A `reload` event updates the plugin state exactly as the `reload` function
does, whether or not an error is thrown. -/
theorem step_reload_plugin {H : Type} (processed : List (ProcessedServiceBinding H))
    (mounts : List (String × MountM H)) (s : SysState H) :
    (step processed (Event.reload mounts) s).plugin
      = (reload processed mounts s.plugin).1 := by
  rw [step_reload]
  cases reload processed mounts s.plugin with
  | mk p err => cases err <;> rfl

/-- A `reload` event does not change the suspended dispatches. -/
theorem step_reload_pending {H : Type} (processed : List (ProcessedServiceBinding H))
    (mounts : List (String × MountM H)) (s : SysState H) :
    (step processed (Event.reload mounts) s).pending = s.pending := by
  rw [step_reload]
  cases reload processed mounts s.plugin with
  | mk p err => cases err <;> rfl

/-- An `issue` event does not change the plugin state. -/
theorem step_issue_plugin {H : Type} (processed : List (ProcessedServiceBinding H))
    (id : Nat) (service : String) (s : SysState H) :
    (step processed (Event.issue id service) s).plugin = s.plugin := by
  rw [step_issue]
  cases s.plugin.contextGen <;> rfl

/-- A `resume` event does not change the plugin state. -/
theorem step_resume_plugin {H : Type} (processed : List (ProcessedServiceBinding H))
    (id : Nat) (s : SysState H) :
    (step processed (Event.resume id) s).plugin = s.plugin := by
  rw [step_resume]
  cases s.pending.find? (fun p => p.1 = id) with
  | none => rfl
  | some p =>
      obtain ⟨j, service, g⟩ := p
      dsimp only
      split <;> rfl

/-- The first service binding whose target is missing, extracted from an
existence witness: `firstUnmounted` returns a pair naming a binding of the
processed list whose string target is absent from the mount table. -/
theorem firstUnmounted_of_missing {H F : Type}
    {processed : List (ProcessedServiceBinding F)}
    {mounts : List (String × MountM H)}
    (hmiss : ∃ b ∈ processed, ∃ sv, b.service = Sum.inl sv ∧ mounts.lookup sv = none) :
    ∃ name sv, firstUnmounted processed mounts = some (name, sv) ∧
      (∃ b ∈ processed, b.name = name ∧ b.service = Sum.inl sv) ∧
      mounts.lookup sv = none := by
  induction processed with
  | nil =>
      obtain ⟨b, hb, _⟩ := hmiss
      cases hb
  | cons b rest ih =>
      have hrest : (∃ b' ∈ rest, ∃ sv, b'.service = Sum.inl sv ∧
          mounts.lookup sv = none) →
          ∃ name sv, firstUnmounted rest mounts = some (name, sv) ∧
            (∃ b' ∈ rest, b'.name = name ∧ b'.service = Sum.inl sv) ∧
            mounts.lookup sv = none := ih
      cases hsvc : b.service with
      | inl sv =>
          cases hlk : mounts.lookup sv with
          | none =>
              refine ⟨b.name, sv, ?_, ⟨b, List.mem_cons_self b rest, rfl, hsvc⟩, hlk⟩
              simp [firstUnmounted, List.findSome?_cons, hsvc, hlk]
          | some m =>
              have hmiss' : ∃ b' ∈ rest, ∃ sv', b'.service = Sum.inl sv' ∧
                  mounts.lookup sv' = none := by
                obtain ⟨b', hb', sv', hsvc', hlk'⟩ := hmiss
                cases List.mem_cons.mp hb' with
                | inl he =>
                    subst he
                    rw [hsvc] at hsvc'
                    cases hsvc'
                    rw [hlk] at hlk'
                    cases hlk'
                | inr hr => exact ⟨b', hr, sv', hsvc', hlk'⟩
              obtain ⟨name, sv', hfu, ⟨b', hb', h1, h2⟩, hlk'⟩ := hrest hmiss'
              refine ⟨name, sv', ?_, ⟨b', List.mem_cons_of_mem b hb', h1, h2⟩, hlk'⟩
              simpa [firstUnmounted, List.findSome?_cons, hsvc, hlk] using hfu
      | inr f =>
          have hmiss' : ∃ b' ∈ rest, ∃ sv', b'.service = Sum.inl sv' ∧
              mounts.lookup sv' = none := by
            obtain ⟨b', hb', sv', hsvc', hlk'⟩ := hmiss
            cases List.mem_cons.mp hb' with
            | inl he =>
                subst he
                rw [hsvc] at hsvc'
                cases hsvc'
            | inr hr => exact ⟨b', hr, sv', hsvc', hlk'⟩
          obtain ⟨name, sv', hfu, ⟨b', hb', h1, h2⟩, hlk'⟩ := hrest hmiss'
          refine ⟨name, sv', ?_, ⟨b', List.mem_cons_of_mem b hb', h1, h2⟩, hlk'⟩
          simpa [firstUnmounted, List.findSome?_cons, hsvc] using hfu

/-- An element of a list that is not the one `eraseP` removes survives the
removal: `eraseP` removes exactly the first element satisfying the predicate,
which is the element `find?` returns. -/
theorem mem_eraseP_of_ne {α : Type} {p : α → Bool} {l : List α} {x b : α}
    (hx : x ∈ l) (hb : l.find? p = some b) (hne : x ≠ b) : x ∈ l.eraseP p := by
  induction l with
  | nil => cases hx
  | cons a l ih =>
      by_cases hpa : p a
      · have hab : a = b := by
          rw [List.find?_cons_of_pos _ hpa] at hb
          exact Option.some.inj hb
        rw [List.eraseP_cons_of_pos hpa]
        cases List.mem_cons.mp hx with
        | inl h => exact absurd (h.trans hab) hne
        | inr h => exact h
      · have hpa' : p a = false := by simpa using hpa
        rw [List.eraseP_cons_of_neg hpa]
        have hb' : l.find? p = some b := by
          rwa [List.find?_cons_of_neg _ hpa] at hb
        cases List.mem_cons.mp hx with
        | inl h => exact List.mem_cons.mpr (Or.inl h)
        | inr h => exact List.mem_cons.mpr (Or.inr (ih h hb'))

/-- Generation `g` is orphaned in plugin state `p`: its promise was never
resolved, the current resolver (if any) targets a strictly later generation,
and `g` was allocated in the past. -/
def genOrphanedP {H : Type} (g : Nat) (p : PluginState H) : Prop :=
  g ∉ p.resolvedGens ∧ (∀ r, p.contextResolveGen = some r → g < r) ∧ g < p.nextGen

/-- `beforeReload` keeps an orphaned generation orphaned: the fresh resolver
targets the newly allocated generation, which is strictly later than `g`. -/
theorem genOrphanedP_beforeReload {H : Type} {g : Nat} {p : PluginState H}
    (h : genOrphanedP g p) : genOrphanedP g (beforeReload p) := by
  obtain ⟨h1, h2, h3⟩ := h
  refine ⟨h1, ?_, Nat.lt_succ_of_lt h3⟩
  intro r hr
  have hr' : some p.nextGen = some r := hr
  cases hr'
  exact h3

/-- The effect of `reload` on the generation bookkeeping: the resolver and the
allocator are untouched, and the resolved set either stays as it was (error
paths) or gains exactly the generation the current resolver targets. -/
theorem reload_gens {H : Type} (processed : List (ProcessedServiceBinding H))
    (mounts : List (String × MountM H)) (p : PluginState H) :
    ((reload processed mounts p).1.contextResolveGen = p.contextResolveGen ∧
      (reload processed mounts p).1.nextGen = p.nextGen) ∧
    ((reload processed mounts p).1.resolvedGens = p.resolvedGens ∨
      ∃ r, p.contextResolveGen = some r ∧
        (reload processed mounts p).1.resolvedGens = r :: p.resolvedGens) := by
  unfold reload
  split
  · exact ⟨⟨rfl, rfl⟩, Or.inl rfl⟩
  · dsimp only
    split
    · exact ⟨⟨rfl, rfl⟩, Or.inl rfl⟩
    · next r heq => exact ⟨⟨rfl, rfl⟩, Or.inr ⟨r, heq, rfl⟩⟩

/-- `reload` keeps an orphaned generation orphaned: a successful reload
resolves only the generation the current resolver targets, which is strictly
later than `g`. -/
theorem genOrphanedP_reload {H : Type} {g : Nat}
    (processed : List (ProcessedServiceBinding H))
    (mounts : List (String × MountM H)) {p : PluginState H}
    (h : genOrphanedP g p) : genOrphanedP g (reload processed mounts p).1 := by
  obtain ⟨h1, h2, h3⟩ := h
  obtain ⟨⟨hcr, hng⟩, hres⟩ := reload_gens processed mounts p
  refine ⟨?_, ?_, ?_⟩
  · cases hres with
    | inl he => rw [he]; exact h1
    | inr he =>
        obtain ⟨r, hr, he⟩ := he
        rw [he]
        intro hmem
        cases List.mem_cons.mp hmem with
        | inl heq => exact absurd heq (Nat.ne_of_lt (h2 r hr))
        | inr hm => exact h1 hm
  · intro r hr
    rw [hcr] at hr
    exact h2 r hr
  · rw [hng]
    exact h3

/-- Every machine step keeps an orphaned generation orphaned. -/
theorem genOrphanedP_step {H : Type} {g : Nat}
    (processed : List (ProcessedServiceBinding H)) (e : Event H) (s : SysState H)
    (h : genOrphanedP g s.plugin) : genOrphanedP g (step processed e s).plugin := by
  cases e with
  | beforeReload => exact genOrphanedP_beforeReload h
  | dispose => exact genOrphanedP_beforeReload h
  | reload mounts =>
      rw [step_reload_plugin]
      exact genOrphanedP_reload processed mounts h
  | issue id service =>
      rw [step_issue_plugin]
      exact h
  | resume id =>
      rw [step_resume_plugin]
      exact h

/-- A suspended dispatch waiting on an orphaned generation survives every
machine step: no event resolves its generation, so `resume` never fires for
it, and no other event removes pending dispatches. -/
theorem orphaned_pending_step {H : Type} {g id : Nat} {svc : String}
    (processed : List (ProcessedServiceBinding H)) (e : Event H) (s : SysState H)
    (h : genOrphanedP g s.plugin) (hp : (id, svc, g) ∈ s.pending) :
    (id, svc, g) ∈ (step processed e s).pending := by
  cases e with
  | beforeReload => exact hp
  | dispose => exact hp
  | reload mounts =>
      rw [step_reload_pending]
      exact hp
  | issue i service =>
      rw [step_issue]
      cases s.plugin.contextGen with
      | none => exact hp
      | some g' => exact List.mem_append_left _ hp
  | resume i =>
      rw [step_resume]
      cases hf : s.pending.find? (fun p => p.1 = i) with
      | none => exact hp
      | some q =>
          obtain ⟨j, service, g'⟩ := q
          dsimp only
          split
          · next hcont =>
              have hg' : g' ∈ s.plugin.resolvedGens := by
                simpa using hcont
              have hne : (id, svc, g) ≠ (j, service, g') := by
                intro he
                apply h.1
                rw [show g = g' from congrArg (fun x => x.2.2) he]
                exact hg'
              exact mem_eraseP_of_ne hp hf hne
          · exact hp

/-- Orphaned generation and its suspended dispatch survive any event trace. -/
theorem orphaned_runFrom {H : Type} {g id : Nat} {svc : String}
    (processed : List (ProcessedServiceBinding H)) (t : List (Event H))
    (s : SysState H) (h : genOrphanedP g s.plugin)
    (hp : (id, svc, g) ∈ s.pending) :
    genOrphanedP g (runFrom processed s t).plugin ∧
      (id, svc, g) ∈ (runFrom processed s t).pending := by
  induction t generalizing s with
  | nil => exact ⟨h, hp⟩
  | cons e t ih =>
      exact ih (step processed e s) (genOrphanedP_step processed e s h)
        (orphaned_pending_step processed e s h hp)

/-- The processed service bindings of the worked examples: one binding named
`AUTH` targeting the mounted service `auth`. -/
def authServiceBindings : List (ProcessedServiceBinding Nat) :=
  [{ name := "AUTH", service := Sum.inl "auth", environment := "production" }]

/-- A mount table mapping `auth` to the dispatch entry point `h`. -/
def authMounts (h : Nat) : List (String × MountM Nat) :=
  [("auth", { dispatchFetch := some h })]

/-- Lookup distributes over list append, preferring the left list. -/
theorem getKey_append {V : Type} (l1 l2 : List (String × V)) (k : String) :
    getKey (l1 ++ l2) k = (getKey l1 k).or (getKey l2 k) := by
  unfold getKey
  rw [List.find?_append]
  cases List.find? (fun kv => kv.1 == k) l1 <;> simp

/-- Looking up the assigned key in the rewrite form of `setKey`. -/
theorem getKey_mapSet_self {V : Type} (l : List (String × V)) (k : String) (v : V) :
    getKey (l.map (fun kv => if kv.1 == k then (k, v) else kv)) k
      = if l.any (fun kv => kv.1 == k) then some v else none := by
  induction l with
  | nil => simp [getKey]
  | cons kv rest ih =>
      by_cases hk : kv.1 = k
      · subst hk
        simp [getKey, List.any_cons, List.find?_cons]
      · have hk' : (kv.1 == k) = false := beq_eq_false_iff_ne.mpr hk
        simp only [List.map_cons, hk', List.any_cons]
        rw [if_neg (by simp [hk'])]
        rw [show getKey (kv :: List.map (fun kv => if kv.1 == k then (k, v) else kv) rest) k
          = getKey (List.map (fun kv => if kv.1 == k then (k, v) else kv) rest) k by
          unfold getKey
          rw [List.find?_cons_of_neg _ (by simp [hk'])]]
        rw [ih, Bool.false_or]

/-- Looking up a different key in the rewrite form of `setKey`. -/
theorem getKey_mapSet_other {V : Type} (l : List (String × V)) (k k1 : String) (v : V)
    (hne : k1 ≠ k) :
    getKey (l.map (fun kv => if kv.1 == k then (k, v) else kv)) k1
      = getKey l k1 := by
  induction l with
  | nil => rfl
  | cons kv rest ih =>
      by_cases hk : kv.1 = k
      · subst hk
        have hh : (kv.1 == k1) = false := beq_eq_false_iff_ne.mpr (fun h => hne h.symm)
        simp only [List.map_cons, if_pos (beq_self_eq_true kv.1)]
        unfold getKey
        rw [List.find?_cons_of_neg _ (by simp [hh]),
          List.find?_cons_of_neg _ (by simp [hh])]
        exact ih
      · have hk' : (kv.1 == k) = false := beq_eq_false_iff_ne.mpr hk
        simp only [List.map_cons]
        rw [if_neg (by simp [hk'])]
        by_cases hh : kv.1 = k1
        · unfold getKey
          rw [List.find?_cons_of_pos _ (by simp [hh]),
            List.find?_cons_of_pos _ (by simp [hh])]
        · have hh' : (kv.1 == k1) = false := beq_eq_false_iff_ne.mpr hh
          unfold getKey
          rw [List.find?_cons_of_neg _ (by simp [hh']),
            List.find?_cons_of_neg _ (by simp [hh'])]
          exact ih

/-- A lookup over a list none of whose keys match fails. -/
theorem getKey_eq_none_of_not_any {V : Type} (l : List (String × V)) (k : String)
    (h : ¬l.any (fun kv => kv.1 == k) = true) : getKey l k = none := by
  unfold getKey
  rw [List.find?_eq_none.mpr (fun x hx hpx => h (List.any_eq_true.mpr ⟨x, hx, hpx⟩))]
  rfl

/-- Looking up the key just assigned yields the assigned value. -/
theorem getKey_setKey_self {V : Type} (l : List (String × V)) (k : String) (v : V) :
    getKey (setKey l k v) k = some v := by
  unfold setKey
  by_cases h : l.any (fun kv => kv.1 == k)
  · rw [if_pos h, getKey_mapSet_self, if_pos h]
  · rw [if_neg h, getKey_append, getKey_eq_none_of_not_any l k h]
    simp [getKey]

/-- Assigning one key leaves lookups of any other key unchanged. -/
theorem getKey_setKey_other {V : Type} (l : List (String × V)) (k k1 : String)
    (v : V) (hne : k1 ≠ k) :
    getKey (setKey l k v) k1 = getKey l k1 := by
  unfold setKey
  by_cases h : l.any (fun kv => kv.1 == k)
  · rw [if_pos h, getKey_mapSet_other l k k1 v hne]
  · rw [if_neg h, getKey_append]
    have hone : getKey [(k, v)] k1 = none := by
      unfold getKey
      rw [List.find?_cons_of_neg _ (by simp [beq_eq_false_iff_ne.mpr (Ne.symm hne)])]
      rfl
    rw [hone]
    cases getKey l k1 <;> rfl

/-- The value of the last occurrence of key `k` in a source, if any — the
value a JavaScript object built from these entries would hold at `k`. -/
def lastVal {V : Type} (src : List (String × V)) (k : String) : Option V :=
  match src with
  | [] => none
  | kv :: rest => (lastVal rest k).or (if kv.1 == k then some kv.2 else none)

/-- `Object.assign` semantics at one key: the value of the last occurrence of the key in the
source if the source contributes the key, otherwise the existing value of the
target. -/
theorem getKey_objAssign {V : Type} (src : List (String × V))
    (t : List (String × V)) (k : String) :
    getKey (objAssign t src) k = (lastVal src k).or (getKey t k) := by
  induction src generalizing t with
  | nil => simp [objAssign, lastVal]
  | cons kv rest ih =>
      rw [show objAssign t (kv :: rest) = objAssign (setKey t kv.1 kv.2) rest from rfl,
        ih]
      rw [show lastVal (kv :: rest) k
        = (lastVal rest k).or (if kv.1 == k then some kv.2 else none) from rfl]
      by_cases hk : kv.1 = k
      · subst hk
        rw [getKey_setKey_self]
        simp [Option.or_assoc]
      · rw [getKey_setKey_other t kv.1 k kv.2 (Ne.symm hk)]
        simp [beq_eq_false_iff_ne.mpr hk]

/-! ## Claims -/

/-- C1: a dispatch through a named-service Fetcher that suspends on the
readiness gate resolves its dispatch entry point from the mount table current
at the moment of resumption, not the one current when it was issued: after
a first cycle mounts `h1` for `auth`, a dispatch to `auth` is issued (at which
moment the mount table still holds `h1`, first conjunct), a second
`beforeReload`/`reload` cycle mounts `h2` before the dispatch resumes, and the
resumed dispatch invokes `h2` — for every pair of handlers `h1`, `h2`. -/
theorem c1_resume_reads_current_mounts (h1 h2 : Nat) :
    (run authServiceBindings
      [Event.beforeReload, Event.reload (authMounts h1),
       Event.issue 0 "auth"]).plugin.mounts = some (authMounts h1) ∧
    (run authServiceBindings
      [Event.beforeReload, Event.reload (authMounts h1), Event.issue 0 "auth",
       Event.beforeReload, Event.reload (authMounts h2),
       Event.resume 0]).results = [(0, DispatchResult.invoked h2)] :=
  ⟨rfl, rfl⟩

/-- C3: when the target service's dispatch entry point throws, the Fetcher
does not propagate the failure: it returns `Except.ok` of the synthetic
internal-exception response — status 500 with the `CF-Worker-Status:
exception` marker header — and the original error is observable only through
the log output, where it is recorded. -/
theorem c3_named_service_contains_failure {Req E Body : Type} (name : String)
    (gate : String → Req → Except E (ResponseM Body)) (input : Req) (e : E)
    (h : gate name (newRequest input) = Except.error e) :
    FetcherM.fetch { service := Sum.inl name, getServiceFetch := gate } input
      = (Except.ok internalExceptionResponse, [e]) ∧
    (internalExceptionResponse : ResponseM Body).status = 500 ∧
    ("CF-Worker-Status", "exception")
      ∈ (internalExceptionResponse : ResponseM Body).headers := by
  refine ⟨?_, rfl, by simp [internalExceptionResponse]⟩
  simp [FetcherM.fetch, h]

/-- Concrete service-fetch collaborator whose entry point always throws. -/
def throwingGate : String → Unit → Except String (ResponseM Unit) :=
  fun _ _ => Except.error "boom"

/-- Witness for C3 at a concrete input. -/
theorem c3_witness :
    throwingGate "auth" (newRequest ()) = Except.error "boom" ∧
    (FetcherM.fetch { service := Sum.inl "auth", getServiceFetch := throwingGate } ()
        = (Except.ok internalExceptionResponse, ["boom"]) ∧
      (internalExceptionResponse : ResponseM Unit).status = 500 ∧
      ("CF-Worker-Status", "exception")
        ∈ (internalExceptionResponse : ResponseM Unit).headers) :=
  ⟨rfl, c3_named_service_contains_failure "auth" throwingGate () "boom" rfl⟩

/-- C7: a Fetcher wrapping a raw handler function invokes the handler directly
on the freshly constructed request and returns its result or failure
unchanged, with nothing logged and no 500-containment (first conjunct), and
the dispatch does not consult the readiness gate or the mount table at all:
the outcome is identical under any two gate collaborators, i.e. unaffected by
reload state (second conjunct). -/
theorem c7_custom_handler_direct {Req E Body : Type}
    (handler : Req → Except E (ResponseM Body))
    (gate gate' : String → Req → Except E (ResponseM Body)) (input : Req) :
    FetcherM.fetch { service := Sum.inr handler, getServiceFetch := gate } input
      = (handler (newRequest input), []) ∧
    FetcherM.fetch { service := Sum.inr handler, getServiceFetch := gate } input
      = FetcherM.fetch { service := Sum.inr handler, getServiceFetch := gate' } input :=
  ⟨rfl, rfl⟩

/-- C5 counterexample: after one completed `beforeReload`/`reload` cycle, a
second `reload` with no fresh preceding `beforeReload` does not fail at all —
the `assert(this.#contextResolve)` still sees the resolver left over from the
first cycle — contradicting the claim that every such call fails fast. -/
theorem c5_counterexample :
    (reload ([] : List (ProcessedServiceBinding Nat)) []
      (reload [] [] (beforeReload ({} : PluginState Nat))).1).2 = none :=
  rfl

/-- C5 amended: only a `reload` issued before any `beforeReload` has ever run
(so the resolver field was never set) fails fast with the fatal assertion
`beforeReload() must be called before reload()`; once `beforeReload` has run
once, later out-of-order `reload` calls pass the assertion (see the
counterexample). -/
theorem c5_reload_before_any_beforeReload_asserts {H : Type}
    (processed : List (ProcessedServiceBinding H))
    (mounts : List (String × MountM H)) (s : PluginState H)
    (hval : firstUnmounted processed mounts = none)
    (hres : s.contextResolveGen = none) :
    (reload processed mounts s).2
      = some (ReloadError.assertionFailed
          "beforeReload() must be called before reload()") := by
  unfold reload
  rw [hval]
  dsimp only
  rw [show ({ s with mounts := some mounts } : PluginState H).contextResolveGen
    = s.contextResolveGen from rfl, hres]

/-- Witness for the amended C5 at a concrete input. -/
theorem c5_witness :
    firstUnmounted ([] : List (ProcessedServiceBinding Nat))
      ([] : List (String × MountM Nat)) = none ∧
    ({} : PluginState Nat).contextResolveGen = none ∧
    (reload ([] : List (ProcessedServiceBinding Nat)) []
        ({} : PluginState Nat)).2
      = some (ReloadError.assertionFailed
          "beforeReload() must be called before reload()") :=
  ⟨rfl, rfl, c5_reload_before_any_beforeReload_asserts [] [] {} rfl rfl⟩

/-- C2: when some processed service binding names a service absent from the
supplied mount table, `reload` throws the `ERR_SERVICE_NOT_MOUNTED`
configuration error synchronously: it returns the error together with the
*unchanged* plugin state — the mount table is not adopted and the gate is not
opened (the cycle's promise generation is not added to `resolvedGens`), no
partial success.  The message names both the offending binding and the missing
service (the two append-decomposition conjuncts), and dispatch steps never
surface a reload error (last conjunct). -/
theorem c2_reload_unmounted_service_fails {H : Type}
    (processed : List (ProcessedServiceBinding H))
    (mounts : List (String × MountM H)) (s : PluginState H)
    (hmiss : ∃ b ∈ processed, ∃ sv, b.service = Sum.inl sv ∧
      mounts.lookup sv = none) :
    ∃ name sv,
      (∃ b ∈ processed, b.name = name ∧ b.service = Sum.inl sv) ∧
      mounts.lookup sv = none ∧
      reload processed mounts s
        = (s, some (ReloadError.serviceNotMounted
            (serviceNotMountedMessage sv name))) ∧
      (∃ a c, serviceNotMountedMessage sv name = a ++ sv ++ c) ∧
      (∃ a c, serviceNotMountedMessage sv name = a ++ name ++ c) ∧
      (∀ (sys : SysState H) (i : Nat) (svc : String),
        (step processed (Event.issue i svc) sys).reloadErrors = sys.reloadErrors ∧
        (step processed (Event.resume i) sys).reloadErrors = sys.reloadErrors) := by
  obtain ⟨name, sv, hfu, hwit, hlk⟩ := firstUnmounted_of_missing hmiss
  refine ⟨name, sv, hwit, hlk, ?_, ?_, ?_, ?_⟩
  · unfold reload
    rw [hfu]
  · exact ⟨"Service \"",
      "\" for binding \"" ++ name ++ "\" not found.\n" ++
        "Make sure \"" ++ sv ++ "\" is mounted so Miniflare knows where to find it.",
      by simp [serviceNotMountedMessage, String.append_assoc]⟩
  · exact ⟨"Service \"" ++ sv ++ "\" for binding \"",
      "\" not found.\n" ++
        "Make sure \"" ++ sv ++ "\" is mounted so Miniflare knows where to find it.",
      by simp [serviceNotMountedMessage, String.append_assoc]⟩
  · intro sys i svc
    constructor
    · rw [step_issue]
      cases sys.plugin.contextGen <;> rfl
    · rw [step_resume]
      cases sys.pending.find? (fun p => p.1 = i) with
      | none => rfl
      | some p =>
          obtain ⟨j, service, g⟩ := p
          dsimp only
          split <;> rfl

/-- Witness for C2 at a concrete input: the `AUTH → auth` binding against an
empty mount table. -/
theorem c2_witness :
    (∃ b ∈ authServiceBindings, ∃ sv, b.service = Sum.inl sv ∧
      ([] : List (String × MountM Nat)).lookup sv = none) ∧
    (∃ name sv,
      (∃ b ∈ authServiceBindings, b.name = name ∧ b.service = Sum.inl sv) ∧
      ([] : List (String × MountM Nat)).lookup sv = none ∧
      reload authServiceBindings [] ({} : PluginState Nat)
        = ({}, some (ReloadError.serviceNotMounted
            (serviceNotMountedMessage sv name))) ∧
      (∃ a c, serviceNotMountedMessage sv name = a ++ sv ++ c) ∧
      (∃ a c, serviceNotMountedMessage sv name = a ++ name ++ c) ∧
      (∀ (sys : SysState Nat) (i : Nat) (svc : String),
        (step authServiceBindings (Event.issue i svc) sys).reloadErrors
          = sys.reloadErrors ∧
        (step authServiceBindings (Event.resume i) sys).reloadErrors
          = sys.reloadErrors)) := by
  have hmiss : ∃ b ∈ authServiceBindings, ∃ sv, b.service = Sum.inl sv ∧
      ([] : List (String × MountM Nat)).lookup sv = none :=
    ⟨{ name := "AUTH", service := Sum.inl "auth", environment := "production" },
      List.mem_singleton.mpr rfl, "auth", rfl, rfl⟩
  exact ⟨hmiss, c2_reload_unmounted_service_fails authServiceBindings [] {} hmiss⟩

/-- C6: a dispatch to a named service issued before any `beforeReload` has
ever run hits `assert(this.#contextPromise)` and dies with an immediate fatal
assertion — the result is recorded in the same step, no suspended dispatch is
created, and the outcome is not an invocation of any entry point (so in
particular not a normal or contained 500 response, which only an invoked
handler or the containment path could produce). -/
theorem c6_dispatch_before_first_cycle_asserts {H : Type}
    (processed : List (ProcessedServiceBinding H)) (t : List (Event H))
    (ht : ∀ e ∈ t, e ≠ Event.beforeReload ∧ e ≠ Event.dispose)
    (id : Nat) (service : String) :
    (step processed (Event.issue id service) (run processed t)).results
      = (run processed t).results ++ [(id, DispatchResult.fatalAssert)] ∧
    (step processed (Event.issue id service) (run processed t)).pending
      = (run processed t).pending ∧
    ∀ h : H, (DispatchResult.fatalAssert : DispatchResult H)
      ≠ DispatchResult.invoked h := by
  have hnone : (run processed t).plugin.contextGen = none :=
    contextGen_none_runFrom processed t {} rfl ht
  refine ⟨?_, ?_, fun h hc => by cases hc⟩ <;> rw [step_issue, hnone]

/-- Witness for C6 at a concrete input: a trace that validates and reloads a
mount table but never runs `beforeReload`. -/
theorem c6_witness :
    (∀ e ∈ [Event.reload (authMounts 7), Event.resume 3],
      e ≠ Event.beforeReload ∧ e ≠ Event.dispose) ∧
    ((step authServiceBindings (Event.issue 0 "auth")
        (run authServiceBindings [Event.reload (authMounts 7), Event.resume 3])).results
      = (run authServiceBindings
          [Event.reload (authMounts 7), Event.resume 3]).results
        ++ [(0, DispatchResult.fatalAssert)] ∧
    (step authServiceBindings (Event.issue 0 "auth")
        (run authServiceBindings [Event.reload (authMounts 7), Event.resume 3])).pending
      = (run authServiceBindings
          [Event.reload (authMounts 7), Event.resume 3]).pending ∧
    ∀ h : Nat, (DispatchResult.fatalAssert : DispatchResult Nat)
      ≠ DispatchResult.invoked h) :=
  ⟨by decide,
    c6_dispatch_before_first_cycle_asserts authServiceBindings
      [Event.reload (authMounts 7), Event.resume 3] (by decide) 0 "auth"⟩

/-- C8: a dispatch suspended on generation `g` that is superseded — a later
`beforeReload` closes the gate again before any `reload` resolved `g` — is
orphaned: over every subsequent event trace, `g` is never added to the
resolved set and the dispatch stays pending forever (first two conjuncts).
The reason is that an open resolves only the generation the resolver current
at that moment targets (third conjunct), and after the superseding
`beforeReload` the resolver always targets a generation strictly later than
`g`. -/
theorem c8_superseded_wait_never_resolves {H : Type}
    (processed : List (ProcessedServiceBinding H)) (s : SysState H)
    (g id : Nat) (svc : String) (t : List (Event H))
    (hp : (id, svc, g) ∈ s.pending)
    (hg : g < s.plugin.nextGen)
    (hr : g ∉ s.plugin.resolvedGens) :
    g ∉ (runFrom processed (step processed Event.beforeReload s) t).plugin.resolvedGens ∧
    (id, svc, g)
      ∈ (runFrom processed (step processed Event.beforeReload s) t).pending ∧
    ∀ (p : PluginState H) (mounts : List (String × MountM H)) (r : Nat),
      p.contextResolveGen = some r → firstUnmounted processed mounts = none →
      (reload processed mounts p).1.resolvedGens = r :: p.resolvedGens := by
  have h0 : genOrphanedP g (step processed Event.beforeReload s).plugin := by
    refine ⟨hr, ?_, Nat.lt_succ_of_lt hg⟩
    intro r hrr
    have hrr' : some s.plugin.nextGen = some r := hrr
    cases hrr'
    exact hg
  have hp0 : (id, svc, g) ∈ (step processed Event.beforeReload s).pending := hp
  obtain ⟨horph, hpend⟩ :=
    orphaned_runFrom processed t (step processed Event.beforeReload s) h0 hp0
  refine ⟨horph.1, hpend, ?_⟩
  intro p mounts r hcr hval
  unfold reload
  rw [hval]
  dsimp only
  rw [show ({ p with mounts := some mounts } : PluginState H).contextResolveGen
    = p.contextResolveGen from rfl, hcr]

/-- C4: the composed binding mapping is assembled by assigning the five
sources in the fixed ascending priority order — Wrangler variables, env-file
variables, WASM module bindings, service bindings, explicit user bindings —
onto one object, so for every name the final value is the highest-priority
contributing source's value for that name (a plain overwrite): user bindings
first, then service bindings, then WASM bindings, then env-file variables,
then Wrangler variables. -/
theorem c4_composition_priority {V F : Type} (cfg : SetupConfig V F)
    (w : SetupWorld V) (envEntries : List (String × V)) (envWatch : List String)
    (wasmEntries : List (String × V)) (wasmWatch : List String)
    (res : SetupResultM V F)
    (henv : envSource cfg w = Except.ok (envEntries, envWatch))
    (hwasm : readWasmAll w cfg.wasmBindings = Except.ok (wasmEntries, wasmWatch))
    (hres : setup cfg w = Except.ok res) (name : String) :
    getKey res.bindings name =
      (lastVal (plainSource cfg.bindings : List (String × BindingVal V F)) name).or
        ((lastVal (cfg.processedServiceBindings.map
            (fun b => (b.name, BindingVal.fetcher b.service))) name).or
          ((lastVal (wasmEntries.map (fun kv => (kv.1, BindingVal.wasm kv.2))) name).or
            ((lastVal (plainSource envEntries) name).or
              (lastVal (plainSource cfg.wranglerBindings : List (String × BindingVal V F)) name)))) := by
  unfold setup at hres
  rw [henv, hwasm] at hres
  simp only [bind, Except.bind, Except.ok.injEq] at hres
  subst hres
  simp only [getKey_objAssign]
  rw [show getKey ([] : List (String × BindingVal V F)) name = none from rfl]
  simp only [Option.or_none]

/-- Configuration of the C4 scenario: the variable file contributes
`A = file-value`, the explicit user bindings contribute `A = override`. -/
def c4Config : SetupConfig String Nat :=
  { wranglerBindings := []
    envPath := EnvPathOption.boolean true
    wasmBindings := []
    processedServiceBindings := []
    bindings := [("A", "override")]
    globals := [] }

/-- World of the C4 scenario: the env file parses to `A = file-value`. -/
def c4World : SetupWorld String :=
  { resolvePath := fun p => p
    readEnvFile := fun _ => Except.ok [("A", "file-value")]
    readWasmFile := fun _ => Except.error { code := "ENOENT" } }

/-- The composed result of the C4 scenario. -/
def c4Result : SetupResultM String Nat :=
  { globals := [], bindings := [("A", BindingVal.plain "override")], watch := [".env"] }

/-- Witness for C4 at a concrete input: the claim's own scenario — the
variable file contributes `A = file-value`, user bindings contribute
`A = override`, and the composed value of `A` is `override`. -/
theorem c4_witness :
    envSource c4Config c4World = Except.ok ([("A", "file-value")], [".env"]) ∧
    readWasmAll c4World c4Config.wasmBindings = Except.ok ([], []) ∧
    setup c4Config c4World = Except.ok c4Result ∧
    getKey c4Result.bindings "A" = some (BindingVal.plain "override") :=
  ⟨rfl, rfl, rfl,
    (c4_composition_priority c4Config c4World [("A", "file-value")] [".env"]
      [] [] c4Result rfl rfl rfl "A").trans rfl⟩

/-- Characterization of `envSource` with the intermediate let inlined. -/
theorem envSource_eq {V F : Type} (cfg : SetupConfig V F) (w : SetupWorld V) :
    envSource cfg w =
      match effectiveEnvPath cfg.envPath with
      | none => Except.ok ([], [])
      | some p =>
          match w.readEnvFile (w.resolvePath p) with
          | Except.ok entries => Except.ok (entries, [w.resolvePath p])
          | Except.error e =>
              if e.code == "ENOENT" && cfg.envPath == EnvPathOption.boolean true then
                Except.ok ([], [w.resolvePath p])
              else Except.error e := rfl

/-- C9: a variable file requested implicitly (`envPath === true`, the default
path) that fails to read with `ENOENT` contributes nothing and `setup`
succeeds; a variable file requested explicitly (a non-empty path string)
whose read fails makes `setup` fail with exactly that error. -/
theorem c9_env_read_errors {V F : Type} (cfg cfg2 : SetupConfig V F)
    (w w2 : SetupWorld V) (e e2 : FsError) (p : String)
    (wasmEntries : List (String × V)) (wasmWatch : List String)
    (h1 : cfg.envPath = EnvPathOption.boolean true)
    (h2 : w.readEnvFile (w.resolvePath ".env") = Except.error e)
    (h3 : e.code = "ENOENT")
    (hw : readWasmAll w cfg.wasmBindings = Except.ok (wasmEntries, wasmWatch))
    (h4 : cfg2.envPath = EnvPathOption.pathStr p) (h5 : p ≠ "")
    (h6 : w2.readEnvFile (w2.resolvePath p) = Except.error e2) :
    (envSource cfg w = Except.ok ([], [w.resolvePath ".env"]) ∧
      ∃ res, setup cfg w = Except.ok res) ∧
    (envSource cfg2 w2 = Except.error e2 ∧
      setup cfg2 w2 = Except.error e2) := by
  have henv : envSource cfg w = Except.ok ([], [w.resolvePath ".env"]) := by
    rw [envSource_eq, h1,
      show effectiveEnvPath (EnvPathOption.boolean true) = some ".env" from rfl]
    dsimp only
    rw [h2]
    simp [h3]
  have henv2 : envSource cfg2 w2 = Except.error e2 := by
    rw [envSource_eq, h4,
      show effectiveEnvPath (EnvPathOption.pathStr p) = some p by
        simp [effectiveEnvPath, h5]]
    dsimp only
    rw [h6]
    have hneq : (EnvPathOption.pathStr p == EnvPathOption.boolean true) = false :=
      beq_eq_false_iff_ne.mpr (by intro hcon; cases hcon)
    simp [hneq]
  refine ⟨⟨henv, ?_⟩, henv2, ?_⟩
  · exact ⟨_, by unfold setup; rw [henv, hw]; rfl⟩
  · unfold setup
    rw [henv2]
    rfl

/-- Configuration for the C9 witness, implicit default env path. -/
def c9ConfigDefault : SetupConfig String Nat :=
  { wranglerBindings := []
    envPath := EnvPathOption.boolean true
    wasmBindings := []
    processedServiceBindings := []
    bindings := []
    globals := [] }

/-- Configuration for the C9 witness, explicitly requested env path. -/
def c9ConfigExplicit : SetupConfig String Nat :=
  { wranglerBindings := []
    envPath := EnvPathOption.pathStr "vars.env"
    wasmBindings := []
    processedServiceBindings := []
    bindings := []
    globals := [] }

/-- World for the C9 witness: every file read fails with `ENOENT`. -/
def c9World : SetupWorld String :=
  { resolvePath := fun p => p
    readEnvFile := fun _ => Except.error { code := "ENOENT" }
    readWasmFile := fun _ => Except.error { code := "ENOENT" } }

/-- Witness for C9 at a concrete input. -/
theorem c9_witness :
    c9ConfigDefault.envPath = EnvPathOption.boolean true ∧
    c9World.readEnvFile (c9World.resolvePath ".env")
      = Except.error { code := "ENOENT" } ∧
    ({ code := "ENOENT" } : FsError).code = "ENOENT" ∧
    readWasmAll c9World c9ConfigDefault.wasmBindings = Except.ok ([], []) ∧
    c9ConfigExplicit.envPath = EnvPathOption.pathStr "vars.env" ∧
    "vars.env" ≠ "" ∧
    c9World.readEnvFile (c9World.resolvePath "vars.env")
      = Except.error { code := "ENOENT" } ∧
    ((envSource c9ConfigDefault c9World
        = Except.ok ([], [c9World.resolvePath ".env"]) ∧
      ∃ res, setup c9ConfigDefault c9World = Except.ok res) ∧
    (envSource c9ConfigExplicit c9World
        = Except.error { code := "ENOENT" } ∧
      setup c9ConfigExplicit c9World = Except.error { code := "ENOENT" })) :=
  ⟨rfl, rfl, rfl, rfl, rfl, by decide, rfl,
    c9_env_read_errors c9ConfigDefault c9ConfigExplicit c9World c9World
      { code := "ENOENT" } { code := "ENOENT" } "vars.env" [] []
      rfl rfl rfl rfl rfl (by decide) rfl⟩

/-- When an env path is in effect, the env-file source records exactly the
resolved path on the watch list, whether or not the read succeeded. -/
theorem envSource_watch {V F : Type} (cfg : SetupConfig V F) (w : SetupWorld V)
    (entries : List (String × V)) (ws : List String) (p : String)
    (hok : envSource cfg w = Except.ok (entries, ws))
    (hp : effectiveEnvPath cfg.envPath = some p) :
    ws = [w.resolvePath p] := by
  rw [envSource_eq, hp] at hok
  dsimp only at hok
  cases hre : w.readEnvFile (w.resolvePath p) with
  | ok es =>
      rw [hre] at hok
      dsimp only at hok
      cases hok
      rfl
  | error err =>
      rw [hre] at hok
      dsimp only at hok
      by_cases hc : (err.code == "ENOENT" && cfg.envPath == EnvPathOption.boolean true)
        = true
      · rw [if_pos hc] at hok
        cases hok
        rfl
      · rw [if_neg hc] at hok
        cases hok

/-- `readWasmAll` succeeds only if every listed module file reads
successfully. -/
theorem readWasmAll_reads_ok {V : Type} (w : SetupWorld V)
    (items : List (String × String)) :
    ∀ (entries : List (String × V)) (ws : List String),
      readWasmAll w items = Except.ok (entries, ws) →
      ∀ np ∈ items, ∃ m, w.readWasmFile (w.resolvePath np.2) = Except.ok m := by
  induction items with
  | nil =>
      intro entries ws hok np hnp
      cases hnp
  | cons item rest ih =>
      obtain ⟨name, wasmPath⟩ := item
      intro entries ws hok np hnp
      unfold readWasmAll at hok
      dsimp only at hok
      cases hre : w.readWasmFile (w.resolvePath wasmPath) with
      | error err =>
          rw [hre] at hok
          simp [bind, Except.bind] at hok
      | ok m =>
          rw [hre] at hok
          cases hra : readWasmAll w rest with
          | error err =>
              rw [hra] at hok
              simp [bind, Except.bind] at hok
          | ok pair =>
              obtain ⟨ms, ws2⟩ := pair
              rw [hra] at hok
              cases List.mem_cons.mp hnp with
              | inl he =>
                  subst he
                  exact ⟨m, hre⟩
              | inr hr => exact ih ms ws2 hra np hr

/-- C10: whenever an env path is in effect, `setup` puts the resolved env
path on the returned watch list even when the env file could not be read
(so that creating it later triggers a reload); by contrast every WASM
binding path on the watch list corresponds to a successfully read file —
`setup` cannot succeed unless all WASM reads succeeded. -/
theorem c10_watch_list {V F : Type} (cfg : SetupConfig V F) (w : SetupWorld V)
    (res : SetupResultM V F) (p : String)
    (hok : setup cfg w = Except.ok res)
    (hp : effectiveEnvPath cfg.envPath = some p) :
    w.resolvePath p ∈ res.watch ∧
    ∀ np ∈ cfg.wasmBindings, ∃ m, w.readWasmFile (w.resolvePath np.2)
      = Except.ok m := by
  unfold setup at hok
  cases henv : envSource cfg w with
  | error err =>
      rw [henv] at hok
      simp [bind, Except.bind] at hok
  | ok epair =>
      obtain ⟨envEntries, envWatch⟩ := epair
      rw [henv] at hok
      cases hwasm : readWasmAll w cfg.wasmBindings with
      | error err =>
          rw [hwasm] at hok
          simp [bind, Except.bind] at hok
      | ok wpair =>
          obtain ⟨wasmEntries, wasmWatch⟩ := wpair
          rw [hwasm] at hok
          simp only [bind, Except.bind, Except.ok.injEq] at hok
          subst hok
          constructor
          · show w.resolvePath p ∈ envWatch ++ wasmWatch
            rw [envSource_watch cfg w envEntries envWatch p henv hp]
            exact List.mem_append_left _ (List.mem_singleton.mpr rfl)
          · exact readWasmAll_reads_ok w cfg.wasmBindings wasmEntries wasmWatch hwasm

/-- Configuration for the C10 witness: default env path in effect plus one
WASM binding. -/
def c10Config : SetupConfig String Nat :=
  { wranglerBindings := []
    envPath := EnvPathOption.boolean true
    wasmBindings := [("WASM", "add.wasm")]
    processedServiceBindings := []
    bindings := []
    globals := [] }

/-- World for the C10 witness: the env file is missing but the WASM file
reads successfully. -/
def c10World : SetupWorld String :=
  { resolvePath := fun p => p
    readEnvFile := fun _ => Except.error { code := "ENOENT" }
    readWasmFile := fun _ => Except.ok "wasm-module" }

/-- The composed result of the C10 witness: the missing env file is on the
watch list anyway. -/
def c10Result : SetupResultM String Nat :=
  { globals := []
    bindings := [("WASM", BindingVal.wasm "wasm-module")]
    watch := [".env", "add.wasm"] }

/-- Witness for C10 at a concrete input. -/
theorem c10_witness :
    setup c10Config c10World = Except.ok c10Result ∧
    effectiveEnvPath c10Config.envPath = some ".env" ∧
    (c10World.resolvePath ".env" ∈ c10Result.watch ∧
      ∀ np ∈ c10Config.wasmBindings,
        ∃ m, c10World.readWasmFile (c10World.resolvePath np.2) = Except.ok m) :=
  ⟨rfl, rfl, c10_watch_list c10Config c10World c10Result ".env" rfl rfl⟩

/-- Witness for C8 at a concrete input: a dispatch issued on generation 0,
superseded by a second `beforeReload` before any `reload`, then a later cycle
opens the gate for generation 1 and the scheduler attempts a resume. -/
theorem c8_witness :
    (0, "auth", 0) ∈ (run authServiceBindings
      [Event.beforeReload, Event.issue 0 "auth"]).pending ∧
    0 < (run authServiceBindings
      [Event.beforeReload, Event.issue 0 "auth"]).plugin.nextGen ∧
    0 ∉ (run authServiceBindings
      [Event.beforeReload, Event.issue 0 "auth"]).plugin.resolvedGens ∧
    (0 ∉ (runFrom authServiceBindings
        (step authServiceBindings Event.beforeReload
          (run authServiceBindings [Event.beforeReload, Event.issue 0 "auth"]))
        [Event.reload (authMounts 5), Event.resume 0,
          Event.beforeReload, Event.reload (authMounts 6)]).plugin.resolvedGens ∧
      (0, "auth", 0) ∈ (runFrom authServiceBindings
        (step authServiceBindings Event.beforeReload
          (run authServiceBindings [Event.beforeReload, Event.issue 0 "auth"]))
        [Event.reload (authMounts 5), Event.resume 0,
          Event.beforeReload, Event.reload (authMounts 6)]).pending ∧
      ∀ (p : PluginState Nat) (mounts : List (String × MountM Nat)) (r : Nat),
        p.contextResolveGen = some r →
        firstUnmounted authServiceBindings mounts = none →
        (reload authServiceBindings mounts p).1.resolvedGens
          = r :: p.resolvedGens) :=
  ⟨by decide, by decide, by decide,
    c8_superseded_wait_never_resolves authServiceBindings
      (run authServiceBindings [Event.beforeReload, Event.issue 0 "auth"])
      0 0 "auth"
      [Event.reload (authMounts 5), Event.resume 0,
        Event.beforeReload, Event.reload (authMounts 6)]
      (by decide) (by decide) (by decide)⟩

end Miniflare
